import Mathlib

/-
Shallow embedding of the red-envelope (gift-money distribution) engine from
internal/apps/redenvelope/routers.go and the expiry sweeper
(refundExpiredRedEnvelopes).

Modelling conventions:
  - decimal.Decimal values are modelled as exact rationals.  The source
    divides with shopspring DivisionPrecision 16 and then rounds to 2
    decimal places; for the cent-grid inputs handled here the 16-digit
    intermediate never changes the 2-decimal result, so Div is modelled as
    exact rational division.
  - Decimal.Round(2) rounds half away from zero at 2 decimal places
    (shopspring semantics), modelled by round2 below.
  - Decimal.IntPart truncates toward zero, modelled by intPart.
  - rand.Int63n m (a draw in [0, m)) is modelled by an arbitrary function
    rnd : Int -> Int together with the hypothesis RandOK rnd.
  - the relational store is modelled by the DB structure; one SQL
    transaction is one Lean function that either returns the new DB
    (commit) or an error and no DB (rollback).
  - time.Time is modelled as Int (e.g. unix seconds); time.Now() is the
    explicit parameter now.
-/

namespace Credit

/-- model.RedEnvelopeType: fixed or random. -/
inductive REType where
  | fixed
  | random
deriving DecidableEq

/-- model.RedEnvelopeStatus: active, finished, expired. -/
inductive REStatus where
  | active
  | finished
  | expired
deriving DecidableEq

/-- The named error conditions of the Claim endpoint (errors.go constants
RedEnvelopeNotFound, RedEnvelopeExpired, RedEnvelopeFinished,
RedEnvelopeAlreadyClaimed, CannotClaimOwnRedEnvelope). -/
inductive ClaimError where
  | notFound
  | expired
  | finished
  | alreadyClaimed
  | cannotClaimOwn
deriving DecidableEq

/-- The named error conditions of the Create endpoint. -/
inductive CreateError where
  | featureDisabled
  | invalidAmount
  | decimalPlacesExceeded
  | amountTooSmall
  | payKeyIncorrect
  | insufficientBalance
deriving DecidableEq

/-- shopspring Decimal.Round(2): round half away from zero to 2 decimal
places. -/
def round2 (x : ℚ) : ℚ :=
  if x < 0 then -((⌊-x * 100 + 1/2⌋ : ℚ) / 100) else (⌊x * 100 + 1/2⌋ : ℚ) / 100

/-- shopspring Decimal.IntPart: truncation toward zero. -/
def intPart (x : ℚ) : ℤ :=
  if x < 0 then ⌈x⌉ else ⌊x⌋

/-- Contract of rand.Int63n: for every positive bound m the draw lies in
[0, m). -/
def RandOK (rnd : ℤ → ℤ) : Prop :=
  ∀ m : ℤ, 0 < m → 0 ≤ rnd m ∧ rnd m < m

/-- calculateRandomAmount from routers.go (two-times-average method).
remaining is the remaining pool, count the number of claimants left
(including the current one); rnd models rand.Int63n. -/
def calculateRandomAmount (remaining : ℚ) (count : ℤ) (rnd : ℤ → ℤ) : ℚ :=
  if count = 1 then remaining
  else
    let minAmount : ℚ := 1/100
    let minRequired : ℚ := minAmount * (count : ℚ)
    if remaining < minRequired then round2 (remaining / (count : ℚ))
    else
      let avg : ℚ := remaining / (count : ℚ)
      let maxAmount0 : ℚ := avg * 2
      let maxPossible : ℚ := remaining - minAmount * ((count : ℚ) - 1)
      let maxAmount1 : ℚ := if maxPossible < maxAmount0 then maxPossible else maxAmount0
      let maxAmount2 : ℚ := if maxAmount1 < minAmount then minAmount else maxAmount1
      let diff : ℚ := maxAmount2 - minAmount
      if diff ≤ 0 then minAmount
      else
        let diffCents : ℤ := intPart (diff * 100)
        if diffCents ≤ 0 then minAmount
        else
          let randCents : ℤ := rnd (diffCents + 1)
          round2 (minAmount + (randCents : ℚ) / 100)

/-- model.RedEnvelope row. -/
structure Envelope where
  id : ℕ
  code : ℕ
  creatorId : ℕ
  rtype : REType
  totalAmount : ℚ
  remainingAmount : ℚ
  totalCount : ℤ
  remainingCount : ℤ
  status : REStatus
  expiresAt : ℤ
deriving DecidableEq

/-- model.RedEnvelopeClaim row. -/
structure ClaimRow where
  redEnvelopeId : ℕ
  userId : ℕ
  amount : ℚ
deriving DecidableEq

/-- model.Order journal entry (only the fields the engine writes that the
claims mention). -/
structure OrderRow where
  payerUserId : ℕ
  payeeUserId : ℕ
  amount : ℚ
  otype : String
deriving DecidableEq

/-- The relational store: red_envelopes, red_envelope_claims, the
available_balance column of users, and the orders journal. -/
structure DB where
  envelopes : List Envelope
  claims : List ClaimRow
  balances : ℕ → ℚ
  orders : List OrderRow

/-- SELECT ... FROM red_envelopes WHERE code = ? LIMIT 1 (gorm First). -/
def findEnv (db : DB) (code : ℕ) : Option Envelope :=
  db.envelopes.find? (fun e => e.code == code)

/-- SELECT ... FROM red_envelope_claims WHERE red_envelope_id = ? AND
user_id = ? (gorm First; true iff the row exists). -/
def hasClaim (db : DB) (envId userId : ℕ) : Bool :=
  db.claims.any (fun cl => cl.redEnvelopeId == envId && cl.userId == userId)

/-- CreateRequest: the decimal totalAmount is kept as (mantissa, exponent)
because Create inspects Exponent(); value = mantissa * 10 ^ exponent. -/
structure DecimalV where
  mantissa : ℤ
  exp : ℤ
deriving DecidableEq

def DecimalV.toRat (d : DecimalV) : ℚ := (d.mantissa : ℚ) * (10 : ℚ) ^ d.exp

/-- CreateRequest from routers.go (greeting and the pay key string are
irrelevant to the claims; pay-key verification enters as the payOk flag). -/
structure CreateReq where
  rtype : REType
  totalAmount : DecimalV
  totalCount : ℤ
deriving DecidableEq

/-- Create from routers.go.  The validation checks run in source order
before the transaction; the transaction body (balance lock, debit, inserts)
either commits (ok, returning the new DB with the envelope id and code) or
rolls back (error, returning no DB).  now models time.Now(); newId and
newCode model the autoincrement id and util.GenerateUniqueIDSimple. -/
def createStep (enabled : Bool) (req : CreateReq) (payOk : Bool) (creatorId : ℕ)
    (now : ℤ) (newId newCode : ℕ) (db : DB) : Except CreateError (DB × ℕ × ℕ) :=
  if ¬ enabled then .error .featureDisabled
  else if req.totalAmount.toRat ≤ 0 then .error .invalidAmount
  else if req.totalAmount.exp < -2 then .error .decimalPlacesExceeded
  else if req.rtype = .fixed ∧ req.totalAmount.toRat / (req.totalCount : ℚ) < 1/100 then
    .error .amountTooSmall
  else if ¬ payOk then .error .payKeyIncorrect
  else if db.balances creatorId < req.totalAmount.toRat then .error .insufficientBalance
  else
    let total := req.totalAmount.toRat
    let env : Envelope :=
      { id := newId, code := newCode, creatorId := creatorId, rtype := req.rtype,
        totalAmount := total, remainingAmount := total,
        totalCount := req.totalCount, remainingCount := req.totalCount,
        status := .active, expiresAt := now + 86400 }
    let db' : DB :=
      { envelopes := db.envelopes ++ [env]
        claims := db.claims
        balances := fun u => if u = creatorId then db.balances u - total else db.balances u
        orders := db.orders ++ [⟨creatorId, creatorId, total, "red_envelope_send"⟩] }
    .ok (db', newId, newCode)

/-- The claimed amount computed inside Claim: fixed envelopes give the whole
remainder to the last claimant and round(totalAmount / totalCount, 2) to the
others; random envelopes use calculateRandomAmount. -/
def claimAmount (e : Envelope) (rnd : ℤ → ℤ) : ℚ :=
  if e.rtype = .fixed then
    if e.remainingCount = 1 then e.remainingAmount
    else round2 (e.totalAmount / (e.totalCount : ℚ))
  else
    calculateRandomAmount e.remainingAmount e.remainingCount rnd

/-- The envelope after a claim: remaining_count decremented, the claimed
amount subtracted, status set to finished when the count reaches 0. -/
def claimEnvUpd (e : Envelope) (rnd : ℤ → ℤ) : Envelope :=
  { e with remainingCount := e.remainingCount - 1,
           remainingAmount := e.remainingAmount - claimAmount e rnd,
           status := if e.remainingCount - 1 ≤ 0 then REStatus.finished else e.status }

/-- The store after a committed claim: the UPDATE by envelope id, the claim
row INSERT, the balance credit and the journal entry of the source
transaction. -/
def claimDBUpd (db : DB) (userId : ℕ) (e : Envelope) (rnd : ℤ → ℤ) : DB :=
  { envelopes := db.envelopes.map fun x =>
      if x.id = e.id then
        { x with remainingCount := e.remainingCount - 1,
                 remainingAmount := e.remainingAmount - claimAmount e rnd,
                 status := if e.remainingCount - 1 ≤ 0 then REStatus.finished else e.status }
      else x
    claims := db.claims ++ [⟨e.id, userId, claimAmount e rnd⟩]
    balances := fun u => if u = userId then db.balances u + claimAmount e rnd else db.balances u
    orders := db.orders ++ [⟨e.creatorId, userId, claimAmount e rnd, "red_envelope_receive"⟩] }

/-- Claim from routers.go: one transaction that locks the envelope row by
code, rejects (not found / expired / finished / already claimed) in source
order, then inserts the claim row, updates the envelope, credits the
claimer and appends the journal entry.  An error models rollback: no state
survives. -/
def claimStep (now : ℤ) (userId : ℕ) (code : ℕ) (rnd : ℤ → ℤ) (db : DB) :
    Except ClaimError (ℚ × Envelope × DB) :=
  match findEnv db code with
  | none => .error .notFound
  | some e =>
    if e.status = .expired ∨ e.expiresAt < now then .error .expired
    else if e.status = .finished ∨ e.remainingCount ≤ 0 then .error .finished
    else if hasClaim db e.id userId then .error .alreadyClaimed
    else .ok (claimAmount e rnd, claimEnvUpd e rnd, claimDBUpd db userId e rnd)

/-- The per-envelope refund transaction of refundExpiredRedEnvelopes
(part_000): UPDATE red_envelopes SET status=expired, remaining_amount=0,
remaining_count=0 WHERE id = ? AND status = active, then, if the snapshot
remainingAmount read by the earlier query is positive, credit the creator
by it and append the refund journal entry.  envSnap is the row as returned
by the query, which may be stale by the time this transaction runs. -/
def refundExpiredOne (envSnap : Envelope) (db : DB) : DB :=
  let db1 : DB :=
    { db with envelopes := db.envelopes.map fun x =>
        if x.id = envSnap.id ∧ x.status = .active then
          { x with status := .expired, remainingAmount := 0, remainingCount := 0 }
        else x }
  if 0 < envSnap.remainingAmount then
    { db1 with
      balances := fun u =>
        if u = envSnap.creatorId then db1.balances u + envSnap.remainingAmount
        else db1.balances u
      orders := db1.orders ++
        [⟨envSnap.creatorId, envSnap.creatorId, envSnap.remainingAmount, "red_envelope_refund"⟩] }
  else db1

/-- refundExpiredRedEnvelopes (part_000) without interleaving: query the
overdue envelopes (status active, expires_at < now, remaining_amount > 0)
and run the per-envelope transaction for each, in order. -/
def refundExpiredRedEnvelopes (now : ℤ) (db : DB) : DB :=
  let overdue := db.envelopes.filter fun e =>
    decide (e.status = .active ∧ e.expiresAt < now ∧ 0 < e.remainingAmount)
  overdue.foldl (fun acc e => refundExpiredOne e acc) db

/-- Fold a list of successful claims: none if any claim in the sequence
fails. -/
def applyClaims (now : ℤ) (code : ℕ) (rnd : ℤ → ℤ) (users : List ℕ) (db : DB) :
    Option DB :=
  users.foldl
    (fun acc u => acc.bind fun d =>
      match claimStep now u code rnd d with
      | .ok p => some p.2.2
      | .error _ => none)
    (some db)

/-- All states reachable from an empty envelope table through Create, Claim
and the sweeper.  The sweeper constructor runs one per-envelope refund
transaction with a snapshot row queried from an earlier reachable state
(the code queries first and opens one transaction per envelope afterwards,
so the snapshot may be stale). -/
inductive Reachable : DB → Prop where
  | init (bal : ℕ → ℚ) : Reachable ⟨[], [], bal, []⟩
  | create {db db' : DB} {id code : ℕ}
      (enabled : Bool) (req : CreateReq) (payOk : Bool) (creatorId : ℕ)
      (now : ℤ) (newId newCode : ℕ)
      (h : Reachable db)
      (heq : createStep enabled req payOk creatorId now newId newCode db = .ok (db', id, code)) :
      Reachable db'
  | claim {db : DB} {a : ℚ} {env' : Envelope} {db' : DB}
      (now : ℤ) (userId : ℕ) (code : ℕ) (rnd : ℤ → ℤ)
      (h : Reachable db)
      (heq : claimStep now userId code rnd db = .ok (a, env', db')) :
      Reachable db'
  | sweepItem {db0 db : DB} (envSnap : Envelope) (now0 : ℤ)
      (h0 : Reachable db0) (h : Reachable db)
      (hq : envSnap ∈ db0.envelopes ∧ envSnap.status = .active ∧
            envSnap.expiresAt < now0 ∧ 0 < envSnap.remainingAmount) :
      Reachable (refundExpiredOne envSnap db)

/-- Evaluation rule for round2 at nonnegative arguments. -/
lemma round2_eval (x : ℚ) (n : ℤ) (h0 : ¬ x < 0)
    (h1 : (n : ℚ) ≤ x * 100 + 1/2) (h2 : x * 100 + 1/2 < (n : ℚ) + 1) :
    round2 x = (n : ℚ) / 100 := by
  rw [round2, if_neg h0]
  congr 1
  norm_cast
  rw [Int.floor_eq_iff]
  exact ⟨h1, h2⟩

/-- Evaluation rule for intPart at nonnegative arguments. -/
lemma intPart_eval (x : ℚ) (n : ℤ) (h0 : ¬ x < 0)
    (h1 : (n : ℚ) ≤ x) (h2 : x < (n : ℚ) + 1) : intPart x = n := by
  rw [intPart, if_neg h0]
  rw [Int.floor_eq_iff]
  exact ⟨h1, h2⟩

/-- round2 is the identity on whole numbers of cents. -/
lemma round2_cent (a : ℤ) : round2 ((a : ℚ) / 100) = (a : ℚ) / 100 := by
  rcases lt_or_le a 0 with h | h
  · rw [round2, if_pos (by
      rw [div_neg_iff]
      right
      refine ⟨by exact_mod_cast h, by norm_num⟩)]
    have hx : -((a:ℚ)/100) * 100 + 1/2 = ((-a : ℤ) : ℚ) + 1/2 := by push_cast; ring
    rw [hx]
    rw [show ⌊((-a : ℤ) : ℚ) + 1/2⌋ = -a by
      rw [Int.floor_eq_iff]
      constructor
      · norm_num
      · norm_num]
    push_cast; ring
  · rw [round2, if_neg (by rw [not_lt]; positivity)]
    have hx : (a:ℚ)/100 * 100 + 1/2 = ((a : ℤ) : ℚ) + 1/2 := by ring
    rw [hx]
    rw [show ⌊((a : ℤ) : ℚ) + 1/2⌋ = a by
      rw [Int.floor_eq_iff]
      constructor
      · norm_num
      · norm_num]

/-- round2 never drops below the minimum unit. -/
lemma round2_ge_cent {x : ℚ} (h : 1/100 ≤ x) : 1/100 ≤ round2 x := by
  rw [round2, if_neg (by rw [not_lt]; linarith)]
  have h1 : (1 : ℤ) ≤ ⌊x * 100 + 1/2⌋ := by
    rw [Int.le_floor]; push_cast; linarith
  have h2 : (1:ℚ) ≤ (⌊x * 100 + 1/2⌋ : ℚ) := by exact_mod_cast h1
  linarith

/-- round2 of a nonnegative value is nonnegative. -/
lemma round2_nonneg {x : ℚ} (h : 0 ≤ x) : 0 ≤ round2 x := by
  rw [round2, if_neg (not_lt.2 h)]
  have h1 : (0 : ℤ) ≤ ⌊x * 100 + 1/2⌋ := by
    rw [Int.le_floor]; push_cast; linarith
  have h2 : (0:ℚ) ≤ (⌊x * 100 + 1/2⌋ : ℚ) := by exact_mod_cast h1
  linarith

/-- The even-split fallback never returns more than the whole remainder:
round(r / n, 2) ≤ r for positive r and n ≥ 2. -/
lemma round2_div_le_self {r : ℚ} {n : ℤ} (hr : 0 < r) (hn : 2 ≤ n) :
    round2 (r / (n : ℚ)) ≤ r := by
  have hn0 : (0:ℚ) < (n : ℚ) := by exact_mod_cast (by omega : (0:ℤ) < n)
  have hdiv : 0 ≤ r / (n : ℚ) := by positivity
  rw [round2, if_neg (not_lt.2 hdiv)]
  have hn2 : (2:ℚ) ≤ (n : ℚ) := by exact_mod_cast hn
  have hkey : r / (n : ℚ) ≤ r / 2 := by
    apply div_le_div_of_nonneg_left (le_of_lt hr) (by norm_num) hn2
  rcases le_or_lt 1 (r * 100) with hbig | hsmall
  · have hfl : (⌊r / (n:ℚ) * 100 + 1/2⌋ : ℚ) ≤ r / (n:ℚ) * 100 + 1/2 := Int.floor_le _
    have : r / (n:ℚ) * 100 + 1/2 ≤ r * 100 := by
      have : r / 2 * 100 + 1/2 ≤ r * 100 := by linarith
      linarith [mul_le_mul_of_nonneg_right hkey (by norm_num : (0:ℚ) ≤ 100)]
    linarith
  · have hlt : r / (n:ℚ) * 100 + 1/2 < 1 := by
      have : r / (n:ℚ) * 100 ≤ r / 2 * 100 :=
        mul_le_mul_of_nonneg_right hkey (by norm_num)
      linarith
    have hfl : ⌊r / (n:ℚ) * 100 + 1/2⌋ < 1 := Int.floor_lt.2 (by exact_mod_cast hlt)
    have hfl2 : (⌊r / (n:ℚ) * 100 + 1/2⌋ : ℚ) ≤ 0 := by exact_mod_cast by omega
    linarith

/-- intPart is below its argument on nonnegative values. -/
lemma intPart_le {x : ℚ} (h0 : ¬ x < 0) : (intPart x : ℚ) ≤ x := by
  rw [intPart, if_neg h0]
  exact Int.floor_le x

/-- The last claimant takes the whole remainder. -/
lemma calcRandom_one (r : ℚ) (rnd : ℤ → ℤ) : calculateRandomAmount r 1 rnd = r := by
  simp [calculateRandomAmount]

/-- Bounds for the cent-grid draw round2(0.01 + k/100) with k between 0 and
intPart(100 * D). -/
lemma draw_bounds (D : ℚ) (k : ℤ) (hD : 0 < D) (hk0 : 0 ≤ k)
    (hkle : k ≤ intPart (D * 100)) :
    1/100 ≤ round2 (1/100 + (k : ℚ)/100) ∧ round2 (1/100 + (k : ℚ)/100) ≤ 1/100 + D := by
  have hgrid : (1:ℚ)/100 + (k : ℚ)/100 = ((1 + k : ℤ) : ℚ) / 100 := by push_cast; ring
  rw [hgrid, round2_cent]
  have hk0q : (0:ℚ) ≤ (k : ℚ) := by exact_mod_cast hk0
  constructor
  · rw [div_le_div_iff (by norm_num) (by norm_num : (0:ℚ) < 100)]
    push_cast; linarith
  · have hip : (intPart (D * 100) : ℚ) ≤ D * 100 :=
      intPart_le (not_lt.2 (by nlinarith))
    have hkq : (k : ℚ) ≤ (intPart (D * 100) : ℚ) := by exact_mod_cast hkle
    rw [div_le_iff (by norm_num : (0:ℚ) < 100)]
    push_cast; nlinarith

/-- In the non-fallback branch (enough money to give everyone a cent) the
random share always lies between one cent and the remainder minus one cent
for each other claimant, whatever rand.Int63n returns. -/
lemma calcRandom_main_bounds (r : ℚ) (n : ℤ) (rnd : ℤ → ℤ)
    (hn : 2 ≤ n) (hmin : 1/100 * (n : ℚ) ≤ r) (hrnd : RandOK rnd) :
    1/100 ≤ calculateRandomAmount r n rnd ∧
      calculateRandomAmount r n rnd ≤ r - 1/100 * ((n : ℚ) - 1) := by
  have hn1 : n ≠ 1 := by omega
  have hn0 : (0:ℚ) < (n : ℚ) := by exact_mod_cast (by omega : (0:ℤ) < n)
  have hn2 : (2:ℚ) ≤ (n : ℚ) := by exact_mod_cast hn
  have havg : 1/100 ≤ r / (n : ℚ) := by
    rw [le_div_iff hn0]; linarith
  have hmp : 1/100 ≤ r - 1/100 * ((n : ℚ) - 1) := by linarith
  simp only [calculateRandomAmount, if_neg hn1, if_neg (not_lt.2 (by linarith : 1/100 * (n:ℚ) ≤ r))]
  split_ifs with h1 h2 h3 h4 h5 h6 h7 h8
  all_goals try (exact ⟨le_refl _, by linarith⟩)
  all_goals try (exfalso; linarith)
  · have hpos : (0:ℤ) < intPart ((r - 1 / 100 * ((n:ℚ) - 1) - 1 / 100) * 100) + 1 := by omega
    obtain ⟨hk0, hklt⟩ := hrnd _ hpos
    have hb := draw_bounds (r - 1 / 100 * ((n:ℚ) - 1) - 1 / 100) _
      (by linarith [not_le.1 h5]) hk0 (by omega)
    exact ⟨hb.1, by linarith [hb.2]⟩
  · rename_i hd5 hd6
    have hpos : (0:ℤ) < intPart ((r / (n:ℚ) * 2 - 1 / 100) * 100) + 1 := by omega
    obtain ⟨hk0, hklt⟩ := hrnd _ hpos
    have hb := draw_bounds (r / (n:ℚ) * 2 - 1 / 100) _
      (by linarith [not_le.1 hd5]) hk0 (by omega)
    exact ⟨hb.1, by linarith [hb.2]⟩

/-- For any positive remainder and any count of claimants the random share
is never negative and never exceeds the remainder (it can be exactly 0 in
the fallback branch). -/
lemma calcRandom_nonneg_le (r : ℚ) (n : ℤ) (rnd : ℤ → ℤ)
    (hr : 0 < r) (hn : 1 ≤ n) (hrnd : RandOK rnd) :
    0 ≤ calculateRandomAmount r n rnd ∧ calculateRandomAmount r n rnd ≤ r := by
  rcases eq_or_lt_of_le hn with h1 | h1
  · rw [← h1, calcRandom_one]
    exact ⟨le_of_lt hr, le_refl r⟩
  · have hn2 : 2 ≤ n := by omega
    have hn2q : (2:ℚ) ≤ (n : ℚ) := by exact_mod_cast hn2
    have hn0 : (0:ℚ) < (n : ℚ) := by linarith
    by_cases hf : r < 1/100 * (n : ℚ)
    · have hn1 : n ≠ 1 := by omega
      simp only [calculateRandomAmount, if_neg hn1, if_pos hf]
      exact ⟨round2_nonneg (by positivity), round2_div_le_self hr hn2⟩
    · have hb := calcRandom_main_bounds r n rnd hn2 (not_lt.1 hf) hrnd
      exact ⟨by linarith [hb.1], by linarith [hb.2]⟩

/-- The terminal claimant (remainingCount = 1) always receives exactly the
pre-claim remainingAmount, for both envelope types. -/
lemma claimAmount_terminal (e : Envelope) (rnd : ℤ → ℤ)
    (hc : e.remainingCount = 1) : claimAmount e rnd = e.remainingAmount := by
  rcases ht : e.rtype with _ | _
  · simp [claimAmount, ht, hc]
  · simp [claimAmount, ht, hc, calcRandom_one]

/-- A non-terminal fixed claim receives round(totalAmount / totalCount, 2). -/
lemma claimAmount_fixed_nonterminal (e : Envelope) (rnd : ℤ → ℤ)
    (hf : e.rtype = .fixed) (hc : e.remainingCount ≠ 1) :
    claimAmount e rnd = round2 (e.totalAmount / (e.totalCount : ℚ)) := by
  simp [claimAmount, hf, hc]

/-- True exactly on committed (ok) results. -/
def exceptOk {ε α : Type} : Except ε α → Bool
  | .ok _ => true
  | .error _ => false

/-- Claim rejects with notFound when no envelope carries the code. -/
lemma claimStep_notFound {now : ℤ} {uid code : ℕ} {rnd : ℤ → ℤ} {db : DB}
    (h : findEnv db code = none) :
    claimStep now uid code rnd db = .error .notFound := by
  simp [claimStep, h]

/-- Claim rejects with expired when the envelope is expired or past its
deadline (strictly: expiresAt < now). -/
lemma claimStep_expired {now : ℤ} {uid code : ℕ} {rnd : ℤ → ℤ} {db : DB} {e : Envelope}
    (h : findEnv db code = some e)
    (hc : e.status = .expired ∨ e.expiresAt < now) :
    claimStep now uid code rnd db = .error .expired := by
  simp [claimStep, h, hc]

/-- Claim rejects with finished when the envelope is finished or empty,
and the expiry check did not fire first. -/
lemma claimStep_finished {now : ℤ} {uid code : ℕ} {rnd : ℤ → ℤ} {db : DB} {e : Envelope}
    (h : findEnv db code = some e)
    (hexp : ¬(e.status = .expired ∨ e.expiresAt < now))
    (hc : e.status = .finished ∨ e.remainingCount ≤ 0) :
    claimStep now uid code rnd db = .error .finished := by
  simp [claimStep, h, hexp, hc]

/-- Claim rejects with alreadyClaimed when a claim row for this user and
envelope exists and no earlier check fired. -/
lemma claimStep_alreadyClaimed {now : ℤ} {uid code : ℕ} {rnd : ℤ → ℤ} {db : DB} {e : Envelope}
    (h : findEnv db code = some e)
    (hexp : ¬(e.status = .expired ∨ e.expiresAt < now))
    (hfin : ¬(e.status = .finished ∨ e.remainingCount ≤ 0))
    (hc : hasClaim db e.id uid = true) :
    claimStep now uid code rnd db = .error .alreadyClaimed := by
  simp [claimStep, h, hexp, hfin, hc]

/-- When all four checks pass the claim commits, with the amount, updated
envelope and updated store of the source transaction. -/
lemma claimStep_ok {now : ℤ} {uid code : ℕ} {rnd : ℤ → ℤ} {db : DB} {e : Envelope}
    (h : findEnv db code = some e)
    (hexp : ¬(e.status = .expired ∨ e.expiresAt < now))
    (hfin : ¬(e.status = .finished ∨ e.remainingCount ≤ 0))
    (hc : hasClaim db e.id uid = false) :
    claimStep now uid code rnd db =
      .ok (claimAmount e rnd, claimEnvUpd e rnd, claimDBUpd db uid e rnd) := by
  simp [claimStep, h, hexp, hfin, hc]

/-- Inversion: a committed claim determines the locked envelope, that all
checks passed, and the exact result. -/
lemma claimStep_ok_inv {now : ℤ} {uid code : ℕ} {rnd : ℤ → ℤ} {db : DB}
    {a : ℚ} {env' : Envelope} {db' : DB}
    (h : claimStep now uid code rnd db = .ok (a, env', db')) :
    ∃ e, findEnv db code = some e ∧
      ¬(e.status = .expired ∨ e.expiresAt < now) ∧
      ¬(e.status = .finished ∨ e.remainingCount ≤ 0) ∧
      hasClaim db e.id uid = false ∧
      a = claimAmount e rnd ∧ env' = claimEnvUpd e rnd ∧ db' = claimDBUpd db uid e rnd := by
  rcases hfind : findEnv db code with _ | e
  · rw [claimStep_notFound hfind] at h
    exact absurd h (by simp)
  · refine ⟨e, rfl, ?_⟩
    by_cases hexp : e.status = .expired ∨ e.expiresAt < now
    · rw [claimStep_expired hfind hexp] at h
      exact absurd h (by simp)
    by_cases hfin : e.status = .finished ∨ e.remainingCount ≤ 0
    · rw [claimStep_finished hfind hexp hfin] at h
      exact absurd h (by simp)
    rcases hc : hasClaim db e.id uid with _ | _
    · rw [claimStep_ok hfind hexp hfin hc] at h
      rw [Except.ok.injEq, Prod.mk.injEq, Prod.mk.injEq] at h
      obtain ⟨h1, h2, h3⟩ := h
      exact ⟨hexp, hfin, rfl, h1.symm, h2.symm, h3.symm⟩
    · rw [claimStep_alreadyClaimed hfind hexp hfin hc] at h
      exact absurd h (by simp)

/-- Inversion for a committed Create: all validation passed and the store
gained exactly the new active envelope, with the balance debited. -/
lemma createStep_ok_inv {enabled : Bool} {req : CreateReq} {payOk : Bool}
    {creatorId : ℕ} {now : ℤ} {newId newCode : ℕ} {db db' : DB} {rid rcode : ℕ}
    (h : createStep enabled req payOk creatorId now newId newCode db = .ok (db', rid, rcode)) :
    db'.envelopes = db.envelopes ++
      [⟨newId, newCode, creatorId, req.rtype, req.totalAmount.toRat, req.totalAmount.toRat,
        req.totalCount, req.totalCount, .active, now + 86400⟩] ∧
    db'.claims = db.claims := by
  unfold createStep at h
  split_ifs at h
  rw [Except.ok.injEq, Prod.mk.injEq] at h
  obtain ⟨h1, h2⟩ := h
  rw [← h1]
  exact ⟨rfl, rfl⟩

/-- find? by code commutes with mapping a code-preserving row update. -/
lemma find?_map_code (l : List Envelope) (f : Envelope → Envelope) (code : ℕ)
    (hf : ∀ x, (f x).code = x.code) :
    (l.map f).find? (fun e => e.code == code) = (l.find? (fun e => e.code == code)).map f := by
  induction l with
  | nil => rfl
  | cons x xs ih =>
    rcases hx : (x.code == code) with _ | _
    · rw [List.map_cons, List.find?_cons_of_neg _ (by rw [hf]; exact (by simp [hx])),
          List.find?_cons_of_neg _ (by simp [hx]), ih]
    · rw [List.map_cons, List.find?_cons_of_pos _ (by rw [hf]; exact (by simp [hx])),
          List.find?_cons_of_pos _ (by simp [hx])]
      rfl

/-- After a committed claim, looking the code up again finds the updated
envelope (the update does not change id or code, and earlier rows in the
table keep their codes). -/
lemma findEnv_claimDBUpd {db : DB} {uid : ℕ} {e : Envelope} {rnd : ℤ → ℤ} {code : ℕ}
    (hfind : findEnv db code = some e) :
    findEnv (claimDBUpd db uid e rnd) code = some (claimEnvUpd e rnd) := by
  unfold findEnv at hfind ⊢
  show (db.envelopes.map _).find? _ = _
  rw [find?_map_code _ _ _ (by
    intro x
    by_cases hx : x.id = e.id
    · simp [hx]
    · simp [hx])]
  rw [hfind]
  simp only [Option.map_some']
  rw [Option.some.injEq]
  simp only [if_true]
  simp [claimEnvUpd]

/-- The claim row inserted by a committed claim makes the duplicate check
fire on any later claim by the same user. -/
lemma hasClaim_claimDBUpd_self (db : DB) (uid : ℕ) (e : Envelope) (rnd : ℤ → ℤ) :
    hasClaim (claimDBUpd db uid e rnd) (claimEnvUpd e rnd).id uid = true := by
  simp [hasClaim, claimDBUpd, claimEnvUpd, List.any_append]

/-- A fixed random source (every draw returns 0); it satisfies the
rand.Int63n contract. -/
def rndZ : ℤ → ℤ := fun _ => 0

lemma rndZ_ok : RandOK rndZ := fun _ hm => ⟨le_refl 0, hm⟩

/-- Fixed envelope with totalAmount 0.09, totalCount 6, of which 0.01
remains for the final 2 claimants: the non-terminal fixed share
round2(0.09/6) = 0.02 exceeds the remainder. -/
def envC2 : Envelope :=
  ⟨1, 5, 1, .fixed, 9/100, 1/100, 6, 2, .active, 86400⟩


/-- A terminal fixed envelope (remainingCount 1). -/
def envC2term : Envelope := ⟨1, 6, 1, .fixed, 1/100, 1/100, 1, 1, .active, 86400⟩

/-- C2: the claim states that for every allocation input with remaining > 0
and count ≥ 1 the computed share satisfies 0 < share ≤ remaining.  False on
the code: the Random fallback returns 0.00 for remaining = 0.01, count = 3,
and the Fixed non-terminal share round2(totalAmount/totalCount) can exceed
the remainder (totalAmount 0.09, totalCount 6, remaining 0.01 gives 0.02). -/
theorem C2_counterexample :
    ((0:ℚ) < 1/100 ∧ (1:ℤ) ≤ 3 ∧ calculateRandomAmount (1/100) 3 rndZ = 0) ∧
    (envC2.rtype = .fixed ∧ (0:ℚ) < envC2.remainingAmount ∧ (1:ℤ) ≤ envC2.remainingCount ∧
      ¬ claimAmount envC2 rndZ ≤ envC2.remainingAmount) := by
  have h3 : calculateRandomAmount (1/100) 3 rndZ = 0 := by
    have hn1 : (3:ℤ) ≠ 1 := by decide
    simp only [calculateRandomAmount, if_neg hn1]
    rw [if_pos (by push_cast; norm_num)]
    rw [round2_eval _ 0 (by push_cast; norm_num) (by push_cast; norm_num)
      (by push_cast; norm_num)]
    norm_num
  have hfx : claimAmount envC2 rndZ = 2/100 := by
    rw [claimAmount_fixed_nonterminal envC2 rndZ rfl (by decide)]
    show round2 ((9:ℚ)/100 / ((6:ℤ) : ℚ)) = 2/100
    rw [round2_eval _ 2 (by push_cast; norm_num) (by push_cast; norm_num)
      (by push_cast; norm_num)]
    norm_num
  refine ⟨⟨by norm_num, by decide, h3⟩, rfl, by norm_num [envC2], by decide, ?_⟩
  rw [hfx]
  show ¬ (2:ℚ)/100 ≤ 1/100
  norm_num

/-- C2 (amended): for the Random path with remaining > 0, count ≥ 1 and any
rand.Int63n draw, 0 ≤ share ≤ remaining (the share can be exactly 0 in the
fallback branch); on the Fixed path the terminal claimant takes exactly the
remainder, and the non-terminal share is at least 0.01 whenever the Create
precondition totalAmount/totalCount ≥ 0.01 holds — but it need not be
bounded by the remainder. -/
theorem C2_amended_share_bounds (remaining : ℚ) (count : ℤ) (rnd : ℤ → ℤ) (e : Envelope)
    (hr : 0 < remaining) (hc : 1 ≤ count) (hrnd : RandOK rnd)
    (hf : e.rtype = .fixed) (hper : 1/100 ≤ e.totalAmount / (e.totalCount : ℚ)) :
    (0 ≤ calculateRandomAmount remaining count rnd ∧
      calculateRandomAmount remaining count rnd ≤ remaining) ∧
    (e.remainingCount = 1 → claimAmount e rnd = e.remainingAmount) ∧
    (e.remainingCount ≠ 1 → 1/100 ≤ claimAmount e rnd) := by
  refine ⟨calcRandom_nonneg_le remaining count rnd hr hc hrnd,
    fun h1 => claimAmount_terminal e rnd h1, fun h1 => ?_⟩
  rw [claimAmount_fixed_nonterminal e rnd hf h1]
  exact round2_ge_cent hper

/-- Witness for C2_amended_share_bounds at remaining 1, count 2, the zero
draw and a terminal fixed envelope. -/
theorem C2_amended_witness :
    (0 ≤ calculateRandomAmount 1 2 rndZ ∧ calculateRandomAmount 1 2 rndZ ≤ 1) ∧
    (envC2term.remainingCount = 1 → claimAmount envC2term rndZ = envC2term.remainingAmount) ∧
    (envC2term.remainingCount ≠ 1 → 1/100 ≤ claimAmount envC2term rndZ) :=
  C2_amended_share_bounds 1 2 rndZ envC2term (by norm_num) (by decide) rndZ_ok rfl
    (by show (1:ℚ)/100 ≤ (1/100) / ((1:ℤ) : ℚ); push_cast; norm_num)

/-- C4: the claim asserts 0.01 ≤ share ≤ remaining − 0.01·(count−1) for all
Random allocations with count ≥ 2, including the even-split fallback.
False in the fallback: remaining 0.01, count 2 yields share 0.01 (0.005
rounds half away from zero to 0.01), above the bound 0.00. -/
theorem C4_counterexample :
    (2:ℤ) ≤ 2 ∧ calculateRandomAmount (1/100) 2 rndZ = 1/100 ∧
    ((1:ℚ)/100 < 1/100 * ((2:ℤ) : ℚ)) ∧
    ¬ calculateRandomAmount (1/100) 2 rndZ ≤ 1/100 - 1/100 * (((2:ℤ) : ℚ) - 1) := by
  have h2 : calculateRandomAmount (1/100) 2 rndZ = 1/100 := by
    have hn1 : (2:ℤ) ≠ 1 := by decide
    simp only [calculateRandomAmount, if_neg hn1]
    rw [if_pos (by push_cast; norm_num)]
    rw [round2_eval _ 1 (by push_cast; norm_num) (by push_cast; norm_num)
      (by push_cast; norm_num)]
    norm_num
  refine ⟨by decide, h2, by push_cast; norm_num, ?_⟩
  rw [h2]
  push_cast
  norm_num

/-- C4 (amended): outside the fallback branch — remaining ≥ 0.01·count —
every Random share with count ≥ 2 satisfies
0.01 ≤ share ≤ remaining − 0.01·(count−1), for every rand.Int63n draw. -/
theorem C4_amended_random_bounds (remaining : ℚ) (count : ℤ) (rnd : ℤ → ℤ)
    (hc : 2 ≤ count) (hmin : 1/100 * (count : ℚ) ≤ remaining) (hrnd : RandOK rnd) :
    1/100 ≤ calculateRandomAmount remaining count rnd ∧
      calculateRandomAmount remaining count rnd ≤ remaining - 1/100 * ((count : ℚ) - 1) :=
  calcRandom_main_bounds remaining count rnd hc hmin hrnd

/-- Witness for C4_amended_random_bounds at remaining 1, count 2, zero
draw. -/
theorem C4_amended_witness :
    1/100 ≤ calculateRandomAmount 1 2 rndZ ∧
      calculateRandomAmount 1 2 rndZ ≤ 1 - 1/100 * (((2:ℤ) : ℚ) - 1) :=
  C4_amended_random_bounds 1 2 rndZ (by decide) (by push_cast; norm_num) rndZ_ok

/-- An active claimable envelope whose expiresAt equals the claim time. -/
def envC6 : Envelope := ⟨1, 5, 1, .fixed, 7/100, 7/100, 1, 1, .active, 100⟩

/-- Store holding only envC6, with no claims. -/
def dbC6 : DB := ⟨[envC6], [], fun _ => 0, []⟩

/-- C6: the claim states Claim rejects with "expired" when expiresAt ≤ now.
False at the boundary: the code uses ExpiresAt.Before(now), a strict
comparison, so a claim at now = expiresAt = 100 succeeds instead of being
rejected. -/
theorem C6_counterexample :
    envC6.expiresAt ≤ 100 ∧ envC6.status = .active ∧
    claimStep 100 2 5 rndZ dbC6 =
      .ok (claimAmount envC6 rndZ, claimEnvUpd envC6 rndZ, claimDBUpd dbC6 2 envC6 rndZ) ∧
    claimStep 100 2 5 rndZ dbC6 ≠ .error .expired := by
  have hok : claimStep 100 2 5 rndZ dbC6 =
      .ok (claimAmount envC6 rndZ, claimEnvUpd envC6 rndZ, claimDBUpd dbC6 2 envC6 rndZ) :=
    claimStep_ok rfl (by decide) (by decide) rfl
  exact ⟨by decide, rfl, hok, by rw [hok]; simp⟩

/-- C6 (amended): after the envelope row is locked, the rejections happen in
source order with distinct conditions — notFound when the code matches no
row; expired when status = Expired or expiresAt < now (strictly); finished
when status = Finished or remainingCount ≤ 0; alreadyClaimed when a claim
row exists for (envelopeId, userId); otherwise the claim commits.  Errors
roll the transaction back: no state survives them. -/
theorem C6_claim_rejection_order (now : ℤ) (uid code : ℕ) (rnd : ℤ → ℤ) (db : DB) :
    (findEnv db code = none → claimStep now uid code rnd db = .error .notFound) ∧
    (∀ e, findEnv db code = some e →
      ((e.status = .expired ∨ e.expiresAt < now) →
        claimStep now uid code rnd db = .error .expired) ∧
      (¬(e.status = .expired ∨ e.expiresAt < now) →
        (e.status = .finished ∨ e.remainingCount ≤ 0) →
        claimStep now uid code rnd db = .error .finished) ∧
      (¬(e.status = .expired ∨ e.expiresAt < now) →
        ¬(e.status = .finished ∨ e.remainingCount ≤ 0) →
        hasClaim db e.id uid = true →
        claimStep now uid code rnd db = .error .alreadyClaimed) ∧
      (¬(e.status = .expired ∨ e.expiresAt < now) →
        ¬(e.status = .finished ∨ e.remainingCount ≤ 0) →
        hasClaim db e.id uid = false →
        claimStep now uid code rnd db =
          .ok (claimAmount e rnd, claimEnvUpd e rnd, claimDBUpd db uid e rnd))) :=
  ⟨fun h => claimStep_notFound h,
   fun _ hfind =>
    ⟨fun hexp => claimStep_expired hfind hexp,
     fun hexp hfin => claimStep_finished hfind hexp hfin,
     fun hexp hfin hc => claimStep_alreadyClaimed hfind hexp hfin hc,
     fun hexp hfin hc => claimStep_ok hfind hexp hfin hc⟩⟩

/-- Witness for C6_claim_rejection_order: at an expired concrete envelope
the second conjunct fires. -/
theorem C6_amended_witness :
    claimStep 200 2 5 rndZ dbC6 = .error .expired :=
  ((C6_claim_rejection_order 200 2 5 rndZ dbC6).2 envC6 rfl).1 (by decide)

/-- Envelope whose creator is user 2; user 2 claims it. -/
def envC9 : Envelope := ⟨1, 5, 2, .fixed, 7/100, 7/100, 1, 1, .active, 100⟩

/-- Store holding only envC9, with no claims. -/
def dbC9 : DB := ⟨[envC9], [], fun _ => 0, []⟩

/-- C9: no input to Claim ever produces CannotClaimOwnRedEnvelope, and a
claim by the creator that passes the generic checks commits like any other
claim. -/
theorem C9_self_claim_permitted (now : ℤ) (uid code : ℕ) (rnd : ℤ → ℤ) (db : DB) :
    claimStep now uid code rnd db ≠ .error .cannotClaimOwn ∧
    (∀ e, findEnv db code = some e → e.creatorId = uid →
      ¬(e.status = .expired ∨ e.expiresAt < now) →
      ¬(e.status = .finished ∨ e.remainingCount ≤ 0) →
      hasClaim db e.id uid = false →
      claimStep now uid code rnd db =
        .ok (claimAmount e rnd, claimEnvUpd e rnd, claimDBUpd db uid e rnd)) := by
  constructor
  · intro h
    rcases hfind : findEnv db code with _ | e
    · rw [claimStep_notFound hfind] at h
      exact absurd h (by simp)
    by_cases hexp : e.status = .expired ∨ e.expiresAt < now
    · rw [claimStep_expired hfind hexp] at h
      exact absurd h (by simp)
    by_cases hfin : e.status = .finished ∨ e.remainingCount ≤ 0
    · rw [claimStep_finished hfind hexp hfin] at h
      exact absurd h (by simp)
    rcases hc : hasClaim db e.id uid with _ | _
    · rw [claimStep_ok hfind hexp hfin hc] at h
      exact absurd h (by simp)
    · rw [claimStep_alreadyClaimed hfind hexp hfin hc] at h
      exact absurd h (by simp)
  · exact fun e hfind _ hexp hfin hc => claimStep_ok hfind hexp hfin hc

/-- Witness for C9_self_claim_permitted: the creator of envC9 claims their
own envelope and the claim commits. -/
theorem C9_witness :
    claimStep 0 2 5 rndZ dbC9 ≠ .error .cannotClaimOwn ∧
    claimStep 0 2 5 rndZ dbC9 =
      .ok (claimAmount envC9 rndZ, claimEnvUpd envC9 rndZ, claimDBUpd dbC9 2 envC9 rndZ) :=
  ⟨(C9_self_claim_permitted 0 2 5 rndZ dbC9).1,
   (C9_self_claim_permitted 0 2 5 rndZ dbC9).2 envC9 rfl rfl (by decide) (by decide) rfl⟩

/-- An envelope whose statuses are the only three. -/
lemma status_active_of_checks {e : Envelope} {now : ℤ}
    (hexp : ¬(e.status = .expired ∨ e.expiresAt < now))
    (hfin : ¬(e.status = .finished ∨ e.remainingCount ≤ 0)) :
    e.status = .active := by
  rcases h : e.status with _ | _ | _
  · rfl
  · exact absurd (Or.inl h) hfin
  · exact absurd (Or.inl h) hexp

/-- C7 (amended): a successful claim credits the claimer exactly one share,
and any later claim by the same user on the same code fails — with
alreadyClaimed whenever the envelope is not yet expired at the later time
and still has shares left, and with expired or finished otherwise; a later
call never credits again because errors roll the transaction back. -/
theorem C7_amended_idempotent (now now' : ℤ) (uid code : ℕ) (rnd rnd' : ℤ → ℤ) (db : DB)
    {a : ℚ} {env1 : Envelope} {db1 : DB}
    (h : claimStep now uid code rnd db = .ok (a, env1, db1)) :
    db1.balances uid = db.balances uid + a ∧
    (∃ err, claimStep now' uid code rnd' db1 = .error err) ∧
    (¬ env1.expiresAt < now' → 1 ≤ env1.remainingCount →
      claimStep now' uid code rnd' db1 = .error .alreadyClaimed) := by
  obtain ⟨e, hfind, hexp, hfin, hc, ha, henv, hdb⟩ := claimStep_ok_inv h
  subst ha henv hdb
  have hfind2 : findEnv (claimDBUpd db uid e rnd) code = some (claimEnvUpd e rnd) :=
    findEnv_claimDBUpd hfind
  refine ⟨by simp [claimDBUpd], ?_, ?_⟩
  · by_cases h2 : (claimEnvUpd e rnd).status = .expired ∨ (claimEnvUpd e rnd).expiresAt < now'
    · exact ⟨.expired, claimStep_expired hfind2 h2⟩
    by_cases h3 : (claimEnvUpd e rnd).status = .finished ∨ (claimEnvUpd e rnd).remainingCount ≤ 0
    · exact ⟨.finished, claimStep_finished hfind2 h2 h3⟩
    · exact ⟨.alreadyClaimed,
        claimStep_alreadyClaimed hfind2 h2 h3 (hasClaim_claimDBUpd_self db uid e rnd)⟩
  · intro hnp hcount
    have hcount' : ¬ e.remainingCount - 1 ≤ 0 := by
      have : (claimEnvUpd e rnd).remainingCount = e.remainingCount - 1 := by
        simp [claimEnvUpd]
      omega
    have hst : (claimEnvUpd e rnd).status = e.status := by
      simp only [claimEnvUpd]
      rw [if_neg hcount']
    have hact := status_active_of_checks hexp hfin
    have hexpAt : (claimEnvUpd e rnd).expiresAt = e.expiresAt := by simp [claimEnvUpd]
    refine claimStep_alreadyClaimed hfind2 ?_ ?_ (hasClaim_claimDBUpd_self db uid e rnd)
    · rw [hst, hact]
      push_neg
      exact ⟨fun h => REStatus.noConfusion h, by rw [hexpAt] at hnp; omega⟩
    · rw [hst, hact]
      push_neg
      refine ⟨fun h => REStatus.noConfusion h, ?_⟩
      have : (claimEnvUpd e rnd).remainingCount = e.remainingCount - 1 := by
        simp [claimEnvUpd]
      omega

/-- A single-share envelope: the first claim finishes it. -/
def envC7 : Envelope := ⟨1, 9, 1, .fixed, 1/100, 1/100, 1, 1, .active, 1000⟩

/-- Store holding only envC7, with no claims. -/
def dbC7 : DB := ⟨[envC7], [], fun _ => 0, []⟩

/-- A two-share envelope for the witness. -/
def envC7b : Envelope := ⟨1, 9, 1, .fixed, 2/100, 2/100, 2, 2, .active, 1000⟩

/-- Store holding only envC7b, with no claims. -/
def dbC7b : DB := ⟨[envC7b], [], fun _ => 0, []⟩

/-- C7: the claim states that the second and every later Claim call by the
same user returns "already claimed".  False when the first claim finished
the envelope: on a single-share envelope the second call returns
"finished", because the finished check runs before the duplicate check.
(Success still happens exactly once; the second call fails.) -/
theorem C7_counterexample :
    claimStep 0 2 9 rndZ dbC7 =
      .ok (claimAmount envC7 rndZ, claimEnvUpd envC7 rndZ, claimDBUpd dbC7 2 envC7 rndZ) ∧
    claimStep 0 2 9 rndZ (claimDBUpd dbC7 2 envC7 rndZ) = .error .finished ∧
    (ClaimError.finished ≠ ClaimError.alreadyClaimed) := by
  have h1 : claimStep 0 2 9 rndZ dbC7 =
      .ok (claimAmount envC7 rndZ, claimEnvUpd envC7 rndZ, claimDBUpd dbC7 2 envC7 rndZ) :=
    claimStep_ok rfl (by decide) (by decide) rfl
  have hfind2 : findEnv (claimDBUpd dbC7 2 envC7 rndZ) 9 = some (claimEnvUpd envC7 rndZ) :=
    findEnv_claimDBUpd rfl
  have h2 : claimStep 0 2 9 rndZ (claimDBUpd dbC7 2 envC7 rndZ) = .error .finished :=
    claimStep_finished hfind2 (by decide) (by decide)
  exact ⟨h1, h2, by simp⟩

/-- Witness for C7_amended_idempotent on a two-share envelope: the second
claim by the same user reports alreadyClaimed and the balance was credited
exactly once. -/
theorem C7_amended_witness :
    (claimDBUpd dbC7b 2 envC7b rndZ).balances 2 = dbC7b.balances 2 + claimAmount envC7b rndZ ∧
    claimStep 5 2 9 rndZ (claimDBUpd dbC7b 2 envC7b rndZ) = .error .alreadyClaimed := by
  have h := C7_amended_idempotent 0 5 2 9 rndZ rndZ dbC7b
    (claimStep_ok rfl (by decide) (by decide) rfl)
  exact ⟨h.1, h.2.2 (by decide) (by decide)⟩

/-- The empty store with unit balances, used for concrete witnesses. -/
def dbEmpty : DB := ⟨[], [], fun _ => 1, []⟩

/-- Scenario D request: fixed, totalAmount 0.02 (two decimal places),
totalCount 3. -/
def reqD : CreateReq := ⟨.fixed, ⟨2, -2⟩, 3⟩

/-- C8: Create rejects each invalid request before opening any transaction
(validation errors depend only on the request, not on the store, and roll
nothing back) with a distinct condition per cause, in source order: feature
disabled; totalAmount ≤ 0; more than 2 decimal places; fixed per-share
below 0.01; unverified payment key. -/
theorem C8_create_validation (req : CreateReq) (payOk : Bool) (creatorId : ℕ)
    (now : ℤ) (newId newCode : ℕ) (db : DB) :
    (createStep false req payOk creatorId now newId newCode db = .error .featureDisabled) ∧
    (req.totalAmount.toRat ≤ 0 →
      createStep true req payOk creatorId now newId newCode db = .error .invalidAmount) ∧
    (¬ req.totalAmount.toRat ≤ 0 → req.totalAmount.exp < -2 →
      createStep true req payOk creatorId now newId newCode db = .error .decimalPlacesExceeded) ∧
    (¬ req.totalAmount.toRat ≤ 0 → ¬ req.totalAmount.exp < -2 →
      req.rtype = .fixed → req.totalAmount.toRat / (req.totalCount : ℚ) < 1/100 →
      createStep true req payOk creatorId now newId newCode db = .error .amountTooSmall) ∧
    (¬ req.totalAmount.toRat ≤ 0 → ¬ req.totalAmount.exp < -2 →
      ¬ (req.rtype = .fixed ∧ req.totalAmount.toRat / (req.totalCount : ℚ) < 1/100) →
      createStep true req false creatorId now newId newCode db = .error .payKeyIncorrect) ∧
    [CreateError.featureDisabled, CreateError.invalidAmount, CreateError.decimalPlacesExceeded,
      CreateError.amountTooSmall, CreateError.payKeyIncorrect].Nodup := by
  refine ⟨?_, ?_, ?_, ?_, ?_, by decide⟩
  · unfold createStep
    rw [if_pos (by simp)]
  · intro h1
    unfold createStep
    rw [if_neg (by simp), if_pos h1]
  · intro h1 h2
    unfold createStep
    rw [if_neg (by simp), if_neg h1, if_pos h2]
  · intro h1 h2 h3 h4
    unfold createStep
    rw [if_neg (by simp), if_neg h1, if_neg h2, if_pos ⟨h3, h4⟩]
  · intro h1 h2 h3
    unfold createStep
    rw [if_neg (by simp), if_neg h1, if_neg h2, if_neg h3, if_pos (by simp)]

/-- Witness for C8_create_validation: Scenario D — totalAmount 0.02 with
totalCount 3 and type fixed is rejected amountTooSmall (per-share below
0.01), at any store. -/
theorem C8_witness :
    createStep true reqD true 1 0 1 101 dbEmpty = .error .amountTooSmall :=
  (C8_create_validation reqD true 1 0 1 101 dbEmpty).2.2.2.1
    (by norm_num [reqD, DecimalV.toRat])
    (by decide)
    rfl
    (by norm_num [reqD, DecimalV.toRat])

/-- Snapshot row as returned by the sweeper query: active, overdue, 0.05
unclaimed. -/
def envC3snap : Envelope := ⟨1, 7, 7, .random, 5/100, 5/100, 2, 1, .active, 10⟩

/-- Store state at transaction time: the same envelope was meanwhile
finished by a last-second claim (remainingAmount 0). -/
def envC3cur : Envelope := ⟨1, 7, 7, .random, 5/100, 0, 2, 0, .finished, 10⟩

/-- Store holding envC3cur. -/
def dbC3 : DB := ⟨[envC3cur], [], fun _ => 0, []⟩

/-- C3: the claim states the per-envelope refund transaction credits the
creator only when the status update actually matched an Active row.  False
on the code: the UPDATE is guarded by status = Active, but the credit is
guarded only by the queried snapshot remainingAmount, so an envelope that
is no longer Active at transaction time is left unexpired (correct) yet its
creator is still credited the stale snapshot amount and a refund journal
entry is appended (money created).  The re-run no-op half of the claim does
hold: a sweep over a store whose envelopes are not Active changes
nothing. -/
theorem C3_refund_without_active_row :
    envC3cur.status ≠ .active ∧
    (refundExpiredOne envC3snap dbC3).envelopes = [envC3cur] ∧
    (refundExpiredOne envC3snap dbC3).balances 7 = dbC3.balances 7 + 5/100 ∧
    (refundExpiredOne envC3snap dbC3).orders =
      dbC3.orders ++ [⟨7, 7, 5/100, "red_envelope_refund"⟩] ∧
    refundExpiredRedEnvelopes 99 dbC3 = dbC3 := by
  have hpos : (0:ℚ) < envC3snap.remainingAmount := by norm_num [envC3snap]
  refine ⟨by decide, ?_, ?_, ?_, ?_⟩
  · simp [refundExpiredOne, if_pos hpos, dbC3, envC3snap, envC3cur]
  · rw [refundExpiredOne]
    simp only [if_pos hpos]
    simp [envC3snap]
  · rw [refundExpiredOne]
    simp only [if_pos hpos]
    simp [envC3snap, dbC3, envC3cur]
  · rw [refundExpiredRedEnvelopes]
    simp [dbC3, envC3cur]

lemma claimEnvUpd_remainingAmount (e : Envelope) (rnd : ℤ → ℤ) :
    (claimEnvUpd e rnd).remainingAmount = e.remainingAmount - claimAmount e rnd := rfl

lemma claimEnvUpd_remainingCount (e : Envelope) (rnd : ℤ → ℤ) :
    (claimEnvUpd e rnd).remainingCount = e.remainingCount - 1 := rfl

lemma claimDBUpd_claims (db : DB) (u : ℕ) (e : Envelope) (rnd : ℤ → ℤ) :
    (claimDBUpd db u e rnd).claims = db.claims ++ [⟨e.id, u, claimAmount e rnd⟩] := rfl

/-- On a one-row table the committed claim update rewrites the row to the
updated envelope. -/
lemma claimDBUpd_envelopes_singleton (e : Envelope) (db : DB) (u : ℕ) (rnd : ℤ → ℤ)
    (h : db.envelopes = [e]) :
    (claimDBUpd db u e rnd).envelopes = [claimEnvUpd e rnd] := by
  simp [claimDBUpd, h, claimEnvUpd]

/-- One successful claim folds into the rest of the user list. -/
lemma applyClaims_cons {now : ℤ} {code : ℕ} {rnd : ℤ → ℤ} {u : ℕ} {us : List ℕ} {db : DB}
    {p : ℚ × Envelope × DB} (h : claimStep now u code rnd db = .ok p) :
    applyClaims now code rnd (u :: us) db = applyClaims now code rnd us p.2.2 := by
  simp [applyClaims, h]

lemma applyClaims_nil (now : ℤ) (code : ℕ) (rnd : ℤ → ℤ) (db : DB) :
    applyClaims now code rnd [] db = some db := rfl

/-- Fixed envelope totalAmount 0.09, totalCount 6, freshly created. -/
def env10 : Envelope := ⟨1, 101, 1, .fixed, 9/100, 9/100, 6, 6, .active, 86400⟩

/-- Store holding env10 as Create leaves it (claims empty). -/
def db10 : DB := ⟨[env10], [], fun _ => 1, []⟩

/-- C1: the claim asserts that on every envelope the sum of recorded claim
amounts never exceeds totalAmount (equivalently remainingAmount stays
nonnegative).  The code violates it: Create accepts fixed totalAmount 0.09
with totalCount 6 (per-share 0.015 ≥ 0.01), every non-terminal claim takes
round2(0.09/6) = 0.02, so after the five non-terminal claims the recorded
amounts sum to 0.10 > 0.09 and remainingAmount is −0.01.  (The equation
Σ amounts = totalAmount − remainingAmount itself still holds:
0.10 = 0.09 − (−0.01).) -/
theorem C1_fixed_claims_exceed_total :
    exceptOk (createStep true ⟨REType.fixed, ⟨9, -2⟩, 6⟩ true 1 0 1 101 dbEmpty) = true ∧
    ∃ d : DB, applyClaims 0 101 rndZ [2, 3, 4, 5, 6] db10 = some d ∧
      d.claims.map ClaimRow.amount = [2/100, 2/100, 2/100, 2/100, 2/100] ∧
      (d.claims.map ClaimRow.amount).sum = 10/100 ∧
      d.envelopes.map Envelope.remainingAmount = [-(1/100)] ∧
      env10.totalAmount = 9/100 ∧
      ¬ ((10:ℚ)/100 ≤ 9/100) ∧ ¬ ((0:ℚ) ≤ -(1/100)) := by
  have hcreate : exceptOk (createStep true ⟨REType.fixed, ⟨9, -2⟩, 6⟩ true 1 0 1 101 dbEmpty)
      = true := by
    unfold createStep
    rw [if_neg (by simp), if_neg (by norm_num [DecimalV.toRat]), if_neg (by decide),
      if_neg (by push_neg; intro h; norm_num [DecimalV.toRat]),
      if_neg (by simp), if_neg (by norm_num [DecimalV.toRat, dbEmpty])]
    rfl
  have hshare : round2 ((9:ℚ)/100 / ((6:ℤ) : ℚ)) = 2/100 := by
    rw [round2_eval _ 2 (by push_cast; norm_num) (by push_cast; norm_num)
      (by push_cast; norm_num)]
    norm_num
  -- the five claim steps
  have hf1 : findEnv db10 101 = some env10 := rfl
  have h1 : claimStep 0 2 101 rndZ db10 =
      .ok (claimAmount env10 rndZ, claimEnvUpd env10 rndZ, claimDBUpd db10 2 env10 rndZ) :=
    claimStep_ok hf1 (by decide) (by decide) rfl
  have hA1 : claimAmount env10 rndZ = 2/100 := by
    rw [claimAmount_fixed_nonterminal _ _ rfl (by decide)]
    exact hshare
  have hf2 := @findEnv_claimDBUpd db10 2 env10 rndZ 101 hf1
  have h2 : claimStep 0 3 101 rndZ (claimDBUpd db10 2 env10 rndZ) =
      .ok (claimAmount (claimEnvUpd env10 rndZ) rndZ,
        claimEnvUpd (claimEnvUpd env10 rndZ) rndZ,
        claimDBUpd (claimDBUpd db10 2 env10 rndZ) 3 (claimEnvUpd env10 rndZ) rndZ) :=
    claimStep_ok hf2 (by decide) (by decide) (by decide)
  have hA2 : claimAmount (claimEnvUpd env10 rndZ) rndZ = 2/100 := by
    rw [claimAmount_fixed_nonterminal _ _ rfl (by decide)]
    exact hshare
  have hf3 := @findEnv_claimDBUpd (claimDBUpd db10 2 env10 rndZ) 3 (claimEnvUpd env10 rndZ)
    rndZ 101 hf2
  have h3 : claimStep 0 4 101 rndZ
        (claimDBUpd (claimDBUpd db10 2 env10 rndZ) 3 (claimEnvUpd env10 rndZ) rndZ) =
      .ok (claimAmount (claimEnvUpd (claimEnvUpd env10 rndZ) rndZ) rndZ,
        claimEnvUpd (claimEnvUpd (claimEnvUpd env10 rndZ) rndZ) rndZ,
        claimDBUpd (claimDBUpd (claimDBUpd db10 2 env10 rndZ) 3 (claimEnvUpd env10 rndZ) rndZ)
          4 (claimEnvUpd (claimEnvUpd env10 rndZ) rndZ) rndZ) :=
    claimStep_ok hf3 (by decide) (by decide) (by decide)
  have hA3 : claimAmount (claimEnvUpd (claimEnvUpd env10 rndZ) rndZ) rndZ = 2/100 := by
    rw [claimAmount_fixed_nonterminal _ _ rfl (by decide)]
    exact hshare
  have hf4 := @findEnv_claimDBUpd
    (claimDBUpd (claimDBUpd db10 2 env10 rndZ) 3 (claimEnvUpd env10 rndZ) rndZ)
    4 (claimEnvUpd (claimEnvUpd env10 rndZ) rndZ) rndZ 101 hf3
  have h4 : claimStep 0 5 101 rndZ
        (claimDBUpd (claimDBUpd (claimDBUpd db10 2 env10 rndZ) 3 (claimEnvUpd env10 rndZ) rndZ)
          4 (claimEnvUpd (claimEnvUpd env10 rndZ) rndZ) rndZ) =
      .ok (claimAmount (claimEnvUpd (claimEnvUpd (claimEnvUpd env10 rndZ) rndZ) rndZ) rndZ,
        claimEnvUpd (claimEnvUpd (claimEnvUpd (claimEnvUpd env10 rndZ) rndZ) rndZ) rndZ,
        claimDBUpd
          (claimDBUpd (claimDBUpd (claimDBUpd db10 2 env10 rndZ) 3 (claimEnvUpd env10 rndZ) rndZ)
            4 (claimEnvUpd (claimEnvUpd env10 rndZ) rndZ) rndZ)
          5 (claimEnvUpd (claimEnvUpd (claimEnvUpd env10 rndZ) rndZ) rndZ) rndZ) :=
    claimStep_ok hf4 (by decide) (by decide) (by decide)
  have hA4 : claimAmount (claimEnvUpd (claimEnvUpd (claimEnvUpd env10 rndZ) rndZ) rndZ) rndZ
      = 2/100 := by
    rw [claimAmount_fixed_nonterminal _ _ rfl (by decide)]
    exact hshare
  have hf5 := @findEnv_claimDBUpd
    (claimDBUpd (claimDBUpd (claimDBUpd db10 2 env10 rndZ) 3 (claimEnvUpd env10 rndZ) rndZ)
      4 (claimEnvUpd (claimEnvUpd env10 rndZ) rndZ) rndZ)
    5 (claimEnvUpd (claimEnvUpd (claimEnvUpd env10 rndZ) rndZ) rndZ) rndZ 101 hf4
  have h5 : claimStep 0 6 101 rndZ
        (claimDBUpd
          (claimDBUpd (claimDBUpd (claimDBUpd db10 2 env10 rndZ) 3 (claimEnvUpd env10 rndZ) rndZ)
            4 (claimEnvUpd (claimEnvUpd env10 rndZ) rndZ) rndZ)
          5 (claimEnvUpd (claimEnvUpd (claimEnvUpd env10 rndZ) rndZ) rndZ) rndZ) =
      .ok (claimAmount
          (claimEnvUpd (claimEnvUpd (claimEnvUpd (claimEnvUpd env10 rndZ) rndZ) rndZ) rndZ) rndZ,
        claimEnvUpd
          (claimEnvUpd (claimEnvUpd (claimEnvUpd (claimEnvUpd env10 rndZ) rndZ) rndZ) rndZ) rndZ,
        claimDBUpd
          (claimDBUpd
            (claimDBUpd (claimDBUpd (claimDBUpd db10 2 env10 rndZ) 3 (claimEnvUpd env10 rndZ) rndZ)
              4 (claimEnvUpd (claimEnvUpd env10 rndZ) rndZ) rndZ)
            5 (claimEnvUpd (claimEnvUpd (claimEnvUpd env10 rndZ) rndZ) rndZ) rndZ)
          6 (claimEnvUpd (claimEnvUpd (claimEnvUpd (claimEnvUpd env10 rndZ) rndZ) rndZ) rndZ)
          rndZ) :=
    claimStep_ok hf5 (by decide) (by decide) (by decide)
  have hA5 : claimAmount
      (claimEnvUpd (claimEnvUpd (claimEnvUpd (claimEnvUpd env10 rndZ) rndZ) rndZ) rndZ) rndZ
      = 2/100 := by
    rw [claimAmount_fixed_nonterminal _ _ rfl (by decide)]
    exact hshare
  have happly : applyClaims 0 101 rndZ [2, 3, 4, 5, 6] db10 = some
      (claimDBUpd
        (claimDBUpd
          (claimDBUpd (claimDBUpd (claimDBUpd db10 2 env10 rndZ) 3 (claimEnvUpd env10 rndZ) rndZ)
            4 (claimEnvUpd (claimEnvUpd env10 rndZ) rndZ) rndZ)
          5 (claimEnvUpd (claimEnvUpd (claimEnvUpd env10 rndZ) rndZ) rndZ) rndZ)
        6 (claimEnvUpd (claimEnvUpd (claimEnvUpd (claimEnvUpd env10 rndZ) rndZ) rndZ) rndZ)
        rndZ) := by
    rw [applyClaims_cons h1, applyClaims_cons h2, applyClaims_cons h3, applyClaims_cons h4,
      applyClaims_cons h5, applyClaims_nil]
  refine ⟨hcreate, _, happly, ?_, ?_, ?_, rfl, by norm_num, by norm_num⟩
  · simp only [claimDBUpd_claims, db10, List.nil_append, List.cons_append, List.map_cons,
      List.map_nil, List.append_nil, List.singleton_append]
    rw [hA1, hA2, hA3, hA4, hA5]
  · simp only [claimDBUpd_claims, db10, List.nil_append, List.cons_append, List.map_cons,
      List.map_nil, List.append_nil, List.singleton_append]
    rw [hA1, hA2, hA3, hA4, hA5]
    norm_num [List.sum_cons, List.sum_nil]
  · have he : (claimDBUpd
          (claimDBUpd
            (claimDBUpd (claimDBUpd (claimDBUpd db10 2 env10 rndZ) 3 (claimEnvUpd env10 rndZ) rndZ)
              4 (claimEnvUpd (claimEnvUpd env10 rndZ) rndZ) rndZ)
            5 (claimEnvUpd (claimEnvUpd (claimEnvUpd env10 rndZ) rndZ) rndZ) rndZ)
          6 (claimEnvUpd (claimEnvUpd (claimEnvUpd (claimEnvUpd env10 rndZ) rndZ) rndZ) rndZ)
          rndZ).envelopes =
        [claimEnvUpd
          (claimEnvUpd (claimEnvUpd (claimEnvUpd (claimEnvUpd env10 rndZ) rndZ) rndZ) rndZ)
          rndZ] := by
      refine claimDBUpd_envelopes_singleton _ _ _ _ ?_
      refine claimDBUpd_envelopes_singleton _ _ _ _ ?_
      refine claimDBUpd_envelopes_singleton _ _ _ _ ?_
      refine claimDBUpd_envelopes_singleton _ _ _ _ ?_
      refine claimDBUpd_envelopes_singleton _ _ _ _ ?_
      rfl
    rw [he, List.map_cons, List.map_nil]
    rw [show ∀ a b : ℚ, [a] = [b] ↔ a = b from fun a b => by simp]
    simp only [claimEnvUpd_remainingAmount]
    rw [hA1, hA2, hA3, hA4, hA5]
    show (9:ℚ)/100 - 2/100 - 2/100 - 2/100 - 2/100 - 2/100 = -(1/100)
    norm_num

/-- Fixed envelope totalAmount 10.00, totalCount 3, freshly created
(Scenario A). -/
def envA : Envelope := ⟨1, 102, 1, .fixed, 10, 10, 3, 3, .active, 86400⟩

/-- Store holding envA as Create leaves it. -/
def dbA : DB := ⟨[envA], [], fun _ => 100, []⟩

/-- C5: on a Fixed envelope every non-terminal claim receives
round2(totalAmount/totalCount) and the terminal claim receives exactly the
pre-claim remainingAmount; concretely, totalAmount 10.00 with totalCount 3
yields claims 3.33, 3.33, 3.34 and the envelope becomes Finished with
remainingAmount 0. -/
theorem C5_fixed_claim_amounts :
    (∀ (e : Envelope) (rnd : ℤ → ℤ), e.rtype = .fixed →
      (e.remainingCount = 1 → claimAmount e rnd = e.remainingAmount) ∧
      (e.remainingCount ≠ 1 →
        claimAmount e rnd = round2 (e.totalAmount / (e.totalCount : ℚ)))) ∧
    ∃ d : DB, applyClaims 0 102 rndZ [2, 3, 4] dbA = some d ∧
      d.claims.map ClaimRow.amount = [333/100, 333/100, 334/100] ∧
      d.envelopes.map (fun e => (e.status, e.remainingAmount)) = [(REStatus.finished, 0)] := by
  have hgen : ∀ (e : Envelope) (rnd : ℤ → ℤ), e.rtype = .fixed →
      (e.remainingCount = 1 → claimAmount e rnd = e.remainingAmount) ∧
      (e.remainingCount ≠ 1 →
        claimAmount e rnd = round2 (e.totalAmount / (e.totalCount : ℚ))) :=
    fun e rnd hf =>
      ⟨fun h1 => claimAmount_terminal e rnd h1,
       fun h1 => claimAmount_fixed_nonterminal e rnd hf h1⟩
  have hshare : round2 ((10:ℚ) / ((3:ℤ) : ℚ)) = 333/100 := by
    rw [round2_eval _ 333 (by push_cast; norm_num) (by push_cast; norm_num)
      (by push_cast; norm_num)]
    norm_num
  have hf1 : findEnv dbA 102 = some envA := rfl
  have h1 : claimStep 0 2 102 rndZ dbA =
      .ok (claimAmount envA rndZ, claimEnvUpd envA rndZ, claimDBUpd dbA 2 envA rndZ) :=
    claimStep_ok hf1 (by decide) (by decide) rfl
  have hA1 : claimAmount envA rndZ = 333/100 := by
    rw [claimAmount_fixed_nonterminal _ _ rfl (by decide)]
    exact hshare
  have hf2 := @findEnv_claimDBUpd dbA 2 envA rndZ 102 hf1
  have h2 : claimStep 0 3 102 rndZ (claimDBUpd dbA 2 envA rndZ) =
      .ok (claimAmount (claimEnvUpd envA rndZ) rndZ,
        claimEnvUpd (claimEnvUpd envA rndZ) rndZ,
        claimDBUpd (claimDBUpd dbA 2 envA rndZ) 3 (claimEnvUpd envA rndZ) rndZ) :=
    claimStep_ok hf2 (by decide) (by decide) (by decide)
  have hA2 : claimAmount (claimEnvUpd envA rndZ) rndZ = 333/100 := by
    rw [claimAmount_fixed_nonterminal _ _ rfl (by decide)]
    exact hshare
  have hf3 := @findEnv_claimDBUpd (claimDBUpd dbA 2 envA rndZ) 3 (claimEnvUpd envA rndZ)
    rndZ 102 hf2
  have h3 : claimStep 0 4 102 rndZ
        (claimDBUpd (claimDBUpd dbA 2 envA rndZ) 3 (claimEnvUpd envA rndZ) rndZ) =
      .ok (claimAmount (claimEnvUpd (claimEnvUpd envA rndZ) rndZ) rndZ,
        claimEnvUpd (claimEnvUpd (claimEnvUpd envA rndZ) rndZ) rndZ,
        claimDBUpd (claimDBUpd (claimDBUpd dbA 2 envA rndZ) 3 (claimEnvUpd envA rndZ) rndZ)
          4 (claimEnvUpd (claimEnvUpd envA rndZ) rndZ) rndZ) :=
    claimStep_ok hf3 (by decide) (by decide) (by decide)
  have hA3 : claimAmount (claimEnvUpd (claimEnvUpd envA rndZ) rndZ) rndZ =
      (claimEnvUpd (claimEnvUpd envA rndZ) rndZ).remainingAmount :=
    claimAmount_terminal _ _ (by decide)
  have hA3v : claimAmount (claimEnvUpd (claimEnvUpd envA rndZ) rndZ) rndZ = 334/100 := by
    rw [hA3]
    simp only [claimEnvUpd_remainingAmount]
    rw [hA1, hA2]
    show (10:ℚ) - 333/100 - 333/100 = 334/100
    norm_num
  have happly : applyClaims 0 102 rndZ [2, 3, 4] dbA = some
      (claimDBUpd (claimDBUpd (claimDBUpd dbA 2 envA rndZ) 3 (claimEnvUpd envA rndZ) rndZ)
        4 (claimEnvUpd (claimEnvUpd envA rndZ) rndZ) rndZ) := by
    rw [applyClaims_cons h1, applyClaims_cons h2, applyClaims_cons h3, applyClaims_nil]
  refine ⟨hgen, _, happly, ?_, ?_⟩
  · simp only [claimDBUpd_claims, dbA, List.nil_append, List.cons_append, List.map_cons,
      List.map_nil, List.append_nil, List.singleton_append]
    rw [hA1, hA2, hA3v]
  · have he : (claimDBUpd (claimDBUpd (claimDBUpd dbA 2 envA rndZ) 3 (claimEnvUpd envA rndZ) rndZ)
        4 (claimEnvUpd (claimEnvUpd envA rndZ) rndZ) rndZ).envelopes =
        [claimEnvUpd (claimEnvUpd (claimEnvUpd envA rndZ) rndZ) rndZ] := by
      refine claimDBUpd_envelopes_singleton _ _ _ _ ?_
      refine claimDBUpd_envelopes_singleton _ _ _ _ ?_
      refine claimDBUpd_envelopes_singleton _ _ _ _ ?_
      rfl
    rw [he, List.map_cons, List.map_nil]
    rw [show ∀ a b : REStatus × ℚ, [a] = [b] ↔ a = b from fun a b => by simp]
    rw [Prod.mk.injEq]
    constructor
    · rfl
    · simp only [claimEnvUpd_remainingAmount]
      rw [hA3v, hA1, hA2]
      show (10:ℚ) - 333/100 - 333/100 - 334/100 = 0
      norm_num

/-- Witness for C5_fixed_claim_amounts: the general rule at the terminal
envelope envC2term and a non-terminal envelope envC2. -/
theorem C5_witness :
    claimAmount envC2term rndZ = envC2term.remainingAmount ∧
    claimAmount envC2 rndZ = round2 (envC2.totalAmount / (envC2.totalCount : ℚ)) :=
  ⟨(C5_fixed_claim_amounts.1 envC2term rndZ rfl).1 rfl,
   (C5_fixed_claim_amounts.1 envC2 rndZ rfl).2 (by decide)⟩

lemma refundExpiredOne_envelopes (envSnap : Envelope) (db : DB) :
    (refundExpiredOne envSnap db).envelopes = db.envelopes.map fun x =>
      if x.id = envSnap.id ∧ x.status = .active then
        { x with status := .expired, remainingAmount := 0, remainingCount := 0 }
      else x := by
  rw [refundExpiredOne]
  split_ifs <;> rfl

/-- C10: in every state reachable through Create, Claim and the sweeper, a
Finished envelope has remainingAmount = 0 and remainingCount = 0: the
Finished transition happens only on the terminal claim, which takes the
entire remainder verbatim for both envelope types. -/
theorem C10_finished_means_empty (db : DB) (h : Reachable db) :
    ∀ e ∈ db.envelopes, e.status = .finished →
      e.remainingAmount = 0 ∧ e.remainingCount = 0 := by
  induction h with
  | init bal =>
    intro e he
    simp only [List.mem_nil_iff] at he
  | create enabled req payOk creatorId now newId newCode h heq ih =>
    intro e he hst
    obtain ⟨henv, _⟩ := createStep_ok_inv heq
    rw [henv] at he
    rcases List.mem_append.1 he with h1 | h1
    · exact ih e h1 hst
    · rw [List.mem_singleton] at h1
      subst h1
      exact absurd hst (by simp)
  | claim now userId code rnd h heq ih =>
    intro x hx hst
    obtain ⟨e, hfind, hexp, hfin, hc, ha, henv, hdb⟩ := claimStep_ok_inv heq
    rw [hdb] at hx
    simp only [claimDBUpd, List.mem_map] at hx
    obtain ⟨y, hy, hxy⟩ := hx
    by_cases hid : y.id = e.id
    · rw [if_pos hid] at hxy
      subst hxy
      by_cases hcnt : e.remainingCount - 1 ≤ 0
      · have hcount1 : e.remainingCount = 1 := by
          rcases not_or.1 hfin with ⟨_, hgt⟩
          omega
        have hamt : claimAmount e rnd = e.remainingAmount := claimAmount_terminal e rnd hcount1
        constructor
        · show e.remainingAmount - claimAmount e rnd = 0
          rw [hamt, sub_self]
        · show e.remainingCount - 1 = 0
          omega
      · exfalso
        have hact := status_active_of_checks hexp hfin
        have : (if e.remainingCount - 1 ≤ 0 then REStatus.finished else e.status)
            = REStatus.finished := hst
        rw [if_neg hcnt, hact] at this
        exact REStatus.noConfusion this
    · rw [if_neg hid] at hxy
      subst hxy
      exact ih y hy hst
  | sweepItem envSnap now0 h0 h hq ih0 ih =>
    intro x hx hst
    rw [refundExpiredOne_envelopes] at hx
    simp only [List.mem_map] at hx
    obtain ⟨y, hy, hxy⟩ := hx
    by_cases hcond : y.id = envSnap.id ∧ y.status = .active
    · rw [if_pos hcond] at hxy
      subst hxy
      exact absurd hst (by simp)
    · rw [if_neg hcond] at hxy
      subst hxy
      exact ih y hy hst

/-- One-share request (fixed, 0.01, one claimant) for the C10 witness. -/
def reqW : CreateReq := ⟨.fixed, ⟨1, -2⟩, 1⟩

/-- C10 witness: a concrete reachable state — create a one-share fixed
envelope and claim it — whose Finished envelope has remainingAmount 0 and
remainingCount 0. -/
theorem C10_witness :
    (claimEnvUpd
      ⟨1, 101, 1, .fixed, reqW.totalAmount.toRat, reqW.totalAmount.toRat, 1, 1, .active, 86400⟩
      rndZ).status = .finished ∧
    (claimEnvUpd
      ⟨1, 101, 1, .fixed, reqW.totalAmount.toRat, reqW.totalAmount.toRat, 1, 1, .active, 86400⟩
      rndZ).remainingAmount = 0 ∧
    (claimEnvUpd
      ⟨1, 101, 1, .fixed, reqW.totalAmount.toRat, reqW.totalAmount.toRat, 1, 1, .active, 86400⟩
      rndZ).remainingCount = 0 := by
  have h0 : Reachable ⟨[], [], fun _ => (1:ℚ), []⟩ := Reachable.init (fun _ => (1:ℚ))
  have hcr : createStep true reqW true 1 0 1 101 ⟨[], [], fun _ => (1:ℚ), []⟩ =
      .ok (⟨[⟨1, 101, 1, .fixed, reqW.totalAmount.toRat, reqW.totalAmount.toRat, 1, 1, .active,
          86400⟩], [], fun u => if u = 1 then (fun _ => (1:ℚ)) u - reqW.totalAmount.toRat
            else (fun _ => (1:ℚ)) u, [⟨1, 1, reqW.totalAmount.toRat, "red_envelope_send"⟩]⟩,
        1, 101) := by
    unfold createStep
    rw [if_neg (by simp), if_neg (by norm_num [reqW, DecimalV.toRat]), if_neg (by decide),
      if_neg (by push_neg; intro h; norm_num [reqW, DecimalV.toRat]),
      if_neg (by simp), if_neg (by norm_num [reqW, DecimalV.toRat])]
    rfl
  have h1 := Reachable.create true reqW true 1 0 1 101 h0 hcr
  have hcl : claimStep 0 1 101 rndZ
      ⟨[⟨1, 101, 1, .fixed, reqW.totalAmount.toRat, reqW.totalAmount.toRat, 1, 1, .active,
          86400⟩], [], fun u => if u = 1 then (fun _ => (1:ℚ)) u - reqW.totalAmount.toRat
            else (fun _ => (1:ℚ)) u, [⟨1, 1, reqW.totalAmount.toRat, "red_envelope_send"⟩]⟩ =
      .ok (claimAmount
          ⟨1, 101, 1, .fixed, reqW.totalAmount.toRat, reqW.totalAmount.toRat, 1, 1, .active,
            86400⟩ rndZ,
        claimEnvUpd
          ⟨1, 101, 1, .fixed, reqW.totalAmount.toRat, reqW.totalAmount.toRat, 1, 1, .active,
            86400⟩ rndZ,
        claimDBUpd
          ⟨[⟨1, 101, 1, .fixed, reqW.totalAmount.toRat, reqW.totalAmount.toRat, 1, 1, .active,
            86400⟩], [], fun u => if u = 1 then (fun _ => (1:ℚ)) u - reqW.totalAmount.toRat
              else (fun _ => (1:ℚ)) u, [⟨1, 1, reqW.totalAmount.toRat, "red_envelope_send"⟩]⟩
          1
          ⟨1, 101, 1, .fixed, reqW.totalAmount.toRat, reqW.totalAmount.toRat, 1, 1, .active,
            86400⟩ rndZ) :=
    claimStep_ok rfl (by decide) (by decide) rfl
  have h2 := Reachable.claim 0 1 101 rndZ h1 hcl
  have hst : (claimEnvUpd
      ⟨1, 101, 1, .fixed, reqW.totalAmount.toRat, reqW.totalAmount.toRat, 1, 1, .active, 86400⟩
      rndZ).status = .finished := by decide
  have hmem : claimEnvUpd
      ⟨1, 101, 1, .fixed, reqW.totalAmount.toRat, reqW.totalAmount.toRat, 1, 1, .active, 86400⟩
      rndZ ∈ (claimDBUpd
        ⟨[⟨1, 101, 1, .fixed, reqW.totalAmount.toRat, reqW.totalAmount.toRat, 1, 1, .active,
          86400⟩], [], fun u => if u = 1 then (fun _ => (1:ℚ)) u - reqW.totalAmount.toRat
            else (fun _ => (1:ℚ)) u, [⟨1, 1, reqW.totalAmount.toRat, "red_envelope_send"⟩]⟩
        1
        ⟨1, 101, 1, .fixed, reqW.totalAmount.toRat, reqW.totalAmount.toRat, 1, 1, .active, 86400⟩
        rndZ).envelopes := by
    simp only [claimDBUpd, claimEnvUpd, List.map_cons, List.map_nil]
    simp
  have hfe := C10_finished_means_empty _ h2 _ hmem hst
  exact ⟨hst, hfe.1, hfe.2⟩

end Credit

